import Mathlib

/-!
P2P-UDP-Client: the bounded-wait receive and the request/reply session.

A shallow embedding of `src/main.c`.  The two C functions, `timeoutRecv` and
`main`, become Lean functions over an explicit description of what the
operating system answers to each system call.  Every system call and every
`printf`/`perror` of the source is recorded, in program order, as an `Event`.

Integer widths follow the LP64 data model the program is built for: `int` has
32 bits, `ssize_t`, `size_t` and `unsigned long` have 64 bits.
-/

namespace P2PUDPClient

/-! ## Machine integers -/

/-- Conversion of an integer value to `int` (32 bits, two's complement). -/
def toInt32 (x : Int) : Int := (x + 2147483648) % 4294967296 - 2147483648

/-- Conversion of an integer value to `size_t` (64 bits, unsigned). -/
def toSizeT (x : Int) : Int := x % 18446744073709551616

/-- The values representable in `ssize_t` (64 bits, two's complement). -/
def isSSizeT (x : Int) : Prop := -9223372036854775808 ≤ x ∧ x < 9223372036854775808

instance (x : Int) : Decidable (isSSizeT x) := by unfold isSSizeT; infer_instance

/-! ## Memory and the environment -/

/-- The bytes reachable through a `void *` or `char *`: offset to byte value. -/
abbrev Buffer := Nat → Nat

/-- The value of `struct timeval`. -/
structure timeval where
  tv_sec : Int
  tv_usec : Int
deriving DecidableEq, Repr

/-- What `recv` finds on the socket once it is called: a failure, or incoming
data of `len` bytes whose byte at offset `i` is `byte i`. -/
inductive RecvOutcome where
  | failed
  | delivered (len : Nat) (byte : Nat → Nat)

/-- The answers of the operating system to the system calls of one run.  Each
call is made at most once per run, so one answer per call suffices. -/
structure OS where
  socketRet : Int
  connectRet : Int
  sendRet : Int
  selectRet : Int
  recvRet : RecvOutcome

/-- The answers of the C library to the two parsing calls of `main`:
`inet_pton AF_INET text` gives `some a` when it returns 1 and stores the binary
address `a`, and `none` when it returns anything else; `strtoul text NULL 0`
gives the `unsigned long` it returns. -/
structure Libc where
  inet_pton : String → Option Nat
  strtoul : String → Nat

/-- The address structure handed to `connect`; `sin_port` holds the port
number, the byte order that `htons` gives it left aside. -/
structure sockaddr_in where
  sin_addr : Nat
  sin_port : Nat
deriving DecidableEq, Repr

/-- One observable step of a run: a system call with its arguments and its
result, or one line written by `printf` or `perror`.  `call_close` is part of
the vocabulary of socket operations although the program never performs it. -/
inductive Event where
  | printf_usage (argv0 : Option String)
  | printf_addrError
  | printf_portError
  | printf_portWarning
  | call_socket (ret : Int)
  | perror_socket
  | call_connect (fd : Int) (addr : sockaddr_in) (ret : Int)
  | perror_connect
  | printf_sending
  | call_send (fd : Int) (payload : List Nat) (len : Nat) (ret : Int)
  | perror_send
  | printf_sent
  | printf_shortSend (sent : Int) (expected : Nat)
  | printf_waiting
  | call_select (nfds : Int) (fd : Int) (timeout : timeval) (ret : Int)
  | call_recv (fd : Int) (size : Nat) (ret : Int)
  | perror_recv
  | printf_timeout
  | printf_received (text : Option (List Nat))
  | call_close (fd : Int)
deriving DecidableEq, Repr

/-! ## System calls -/

/-- The call `recv(socketFD, buffer, size, 0)`: on failure the result is -1 and
the buffer is left as it was; otherwise the first `min len size` incoming bytes
are copied to the start of the buffer and their number is the result. -/
def recv (os : OS) (buffer : Buffer) (size : Nat) : Buffer × Int :=
  match os.recvRet with
  | .failed => (buffer, -1)
  | .delivered len byte =>
    (fun i => if i < min len size then byte i else buffer i, ((min len size : Nat) : Int))

/-! ## timeoutRecv (src/main.c, lines 14-36) -/

/-- The result of one call of `timeoutRecv`: the system calls it made, the
content of the caller's buffer afterwards, and the value returned. -/
structure RecvRun where
  events : List Event
  buffer : Buffer
  ret : Int

/-- The function `timeoutRecv(socketFD, buffer, size, timeout)`. -/
def timeoutRecv (os : OS) (socketFD : Int) (buffer : Buffer) (size : Nat)
    (timeout : timeval) : RecvRun :=
  let FDcount := socketFD + 1
  let returnValue : Int := os.selectRet
  let selected := [Event.call_select FDcount socketFD timeout returnValue]
  if returnValue = 0 ∨ returnValue = -1 then
    ⟨selected, buffer, returnValue - 1⟩
  else
    let received := recv os buffer size
    -- line 31: the result of recv, an ssize_t, is assigned to the int returnValue
    let returnValue : Int := toInt32 received.2
    let called := selected ++ [Event.call_recv socketFD size received.2]
    if returnValue = -1 then
      ⟨called, received.1, -2⟩
    else
      ⟨called, received.1, returnValue⟩

/-- Whether an event is a call of `recv`. -/
def Event.isRecv : Event → Bool
  | .call_recv _ _ _ => true
  | _ => false

/-! ## The C library -/

/-- The array `message` of `main`, `"Hey, server, it's client"` followed by a
line feed and the terminating zero byte: 26 bytes. -/
def message : List Nat :=
  [72, 101, 121, 44, 32, 115, 101, 114, 118, 101, 114, 44, 32, 105, 116, 39, 115, 32,
   99, 108, 105, 101, 110, 116, 10, 0]

/-- The C function `strlen`: the number of bytes before the first zero byte. -/
def strlen (s : List Nat) : Nat := (s.takeWhile (fun b => b != 0)).length

/-- What the conversion `%s` of `printf` writes for a `char` array of `cap`
bytes, read from offset `i`: the bytes before the first zero byte.  The result
is `none` when the array holds no zero byte from `i` on, since the read then
runs past the end of the array. -/
def readString (buf : Buffer) : (cap : Nat) → (i : Nat) → Option (List Nat)
  | 0, _ => none
  | cap + 1, i =>
    if buf i = 0 then some [] else (readString buf cap (i + 1)).map (fun s => buf i :: s)

/-- The loop of the reference `inet_pton` for `AF_INET`: `saw_digit`, `octets`
and the octet being read `cur` are its local variables, `done` holds the octets
already completed. -/
def inet_pton4_loop : List Char → Bool → Nat → Nat → List Nat → Option (List Nat)
  | [], _, octets, cur, done => if octets < 4 then none else some (done ++ [cur])
  | ch :: src, saw_digit, octets, cur, done =>
    if 48 ≤ ch.toNat ∧ ch.toNat ≤ 57 then
      let new := cur * 10 + (ch.toNat - 48)
      if saw_digit ∧ cur = 0 then none
      else if new > 255 then none
      else if saw_digit then inet_pton4_loop src true octets new done
      else if octets + 1 > 4 then none
      else inet_pton4_loop src true (octets + 1) new done
    else if ch.toNat = 46 ∧ saw_digit then
      if octets = 4 then none
      else inet_pton4_loop src false octets 0 (done ++ [cur])
    else none

/-- The library function `inet_pton(AF_INET, src, dst)`: `some a` when it
returns 1 and stores the address `a`, `none` when it returns 0. -/
def inet_pton4 (src : String) : Option Nat :=
  (inet_pton4_loop src.toList false 0 0 []).map (fun os => os.foldl (fun a o => a * 256 + o) 0)

/-- The value of a digit or letter in `strtoul`. -/
def digitValue (ch : Char) : Option Nat :=
  if 48 ≤ ch.toNat ∧ ch.toNat ≤ 57 then some (ch.toNat - 48)
  else if 97 ≤ ch.toNat ∧ ch.toNat ≤ 122 then some (ch.toNat - 87)
  else if 65 ≤ ch.toNat ∧ ch.toNat ≤ 90 then some (ch.toNat - 55)
  else none

/-- The digits of `strtoul` in the given base, accumulated from the left up to
the first character that is not a digit of that base. -/
def strtoul_digits (base : Nat) : List Char → Nat → Nat
  | [], acc => acc
  | ch :: rest, acc =>
    match digitValue ch with
    | some d => if d < base then strtoul_digits base rest (acc * base + d) else acc
    | none => acc

/-- The white space skipped by `strtoul`. -/
def isspace (ch : Char) : Bool :=
  ch.toNat = 32 || (9 ≤ ch.toNat && ch.toNat ≤ 13)

/-- The library function `strtoul(text, NULL, 0)` for a 64-bit `unsigned long`:
leading white space, an optional sign, base 16 after `0x`, base 8 after `0`,
base 10 otherwise; `ULONG_MAX` on overflow; a negated value wraps. -/
def strtoul_base0 (text : String) : Nat :=
  let unsigned (cs : List Char) : Nat :=
    match cs with
    | a :: b :: c :: rest =>
      if a.toNat = 48 ∧ (b.toNat = 120 ∨ b.toNat = 88) ∧ (digitValue c).any (fun d => d < 16) then
        strtoul_digits 16 (c :: rest) 0
      else if a.toNat = 48 then strtoul_digits 8 cs 0
      else strtoul_digits 10 cs 0
    | a :: _ => if a.toNat = 48 then strtoul_digits 8 cs 0 else strtoul_digits 10 cs 0
    | [] => 0
  match text.toList.dropWhile isspace with
  | sign :: cs =>
    if sign.toNat = 45 then
      let v := unsigned cs
      if v > 18446744073709551615 then 18446744073709551615
      else (18446744073709551616 - v) % 18446744073709551616
    else if sign.toNat = 43 then min (unsigned cs) 18446744073709551615
    else min (unsigned (sign :: cs)) 18446744073709551615
  | [] => 0

/-- The C library as specified by POSIX. -/
def posixLibc : Libc := ⟨inet_pton4, strtoul_base0⟩

/-! ## main (src/main.c, lines 38-112) -/

/-- The result of one run of `main`: everything it did, in order, and the value
`timeoutRecv` returned to it, if the run got that far.  The exit status is 0 on
every path and is not recorded. -/
structure Run where
  events : List Event
  waitResult : Option Int

/-- The function `main(argc, argv)`, with `argc = argv.length`. -/
def main (libc : Libc) (os : OS) (argv : List String) : Run :=
  if argv.length ≠ 3 then
    ⟨[Event.printf_usage argv.head?], none⟩
  else
    match libc.inet_pton (argv.getD 1 "") with
    | none => ⟨[Event.printf_addrError], none⟩
    | some sin_addr =>
      let uintServerPortValue := libc.strtoul (argv.getD 2 "")
      if uintServerPortValue > 65535 then
        ⟨[Event.printf_portError], none⟩
      else
        let warned :=
          if uintServerPortValue < 49152 then [Event.printf_portWarning] else []
        let serverUDPPort := uintServerPortValue % 65536
        let serverAddress : sockaddr_in := ⟨sin_addr, serverUDPPort⟩
        let clientSockFD := os.socketRet
        let created := warned ++ [Event.call_socket clientSockFD]
        if clientSockFD = -1 then
          ⟨created ++ [Event.perror_socket], none⟩
        else
          let connected :=
            created ++ [Event.call_connect clientSockFD serverAddress os.connectRet]
              ++ (if os.connectRet = -1 then [Event.perror_connect] else [])
          let length := strlen message + 1
          let bytesSendRecv := os.sendRet
          let sending :=
            connected ++ [Event.printf_sending,
              Event.call_send clientSockFD (message.take length) length bytesSendRecv]
          if bytesSendRecv = -1 then
            ⟨sending ++ [Event.perror_send], none⟩
          else
            let sent :=
              sending ++ [Event.printf_sent]
                ++ (if toSizeT bytesSendRecv ≠ toSizeT length then
                      [Event.printf_shortSend bytesSendRecv length]
                    else [])
            let timeout : timeval := ⟨10, 0⟩
            let received : Buffer := fun _ => 0
            let reply := timeoutRecv os clientSockFD received 1024 timeout
            let waited := sent ++ [Event.printf_waiting] ++ reply.events
            if reply.ret = -2 then
              ⟨waited ++ [Event.perror_recv], some reply.ret⟩
            else if reply.ret = -1 then
              ⟨waited ++ [Event.printf_timeout], some reply.ret⟩
            else
              ⟨waited ++ [Event.printf_received (readString reply.buffer 1024 0)],
                some reply.ret⟩

/-- The bytes `"Получено: "` (UTF-8) that open the line of a received reply. -/
def receivedHead : List Nat :=
  [208, 159, 208, 190, 208, 187, 209, 131, 209, 135, 208, 181, 208, 189, 208, 190, 58, 32]

/-- The bytes written by `printf("Получено: %s\n", received)`, when defined. -/
def Event.receivedLine : Event → Option (List Nat)
  | .printf_received (some text) => some (receivedHead ++ text ++ [10])
  | _ => none

/-- The line of the received reply in a run, if the run printed one. -/
def Run.successLine (r : Run) : Option (List Nat) :=
  r.events.findSome? Event.receivedLine

/-! ## Classification of events -/

/-- Whether an event is a network operation (a system call on a socket). -/
def Event.isCall : Event → Bool
  | .call_socket _ => true
  | .call_connect _ _ _ => true
  | .call_send _ _ _ _ => true
  | .call_select _ _ _ _ => true
  | .call_recv _ _ _ => true
  | .call_close _ => true
  | _ => false

/-- Whether an event belongs to the connect step: the call or its report. -/
def Event.isConnectStep : Event → Bool
  | .call_connect _ _ _ => true
  | .perror_connect => true
  | _ => false

/-- Whether an event is one of the eight outcome lines that end a run. -/
def Event.isTerminal : Event → Bool
  | .printf_usage _ => true
  | .printf_addrError => true
  | .printf_portError => true
  | .perror_socket => true
  | .perror_send => true
  | .perror_recv => true
  | .printf_timeout => true
  | .printf_received _ => true
  | _ => false

/-- The event with the port number given to `connect` blanked. -/
def Event.forgetPort : Event → Event
  | .call_connect fd addr ret => .call_connect fd ⟨addr.sin_addr, 0⟩ ret
  | e => e

/-- The operations of a run apart from the port warning and the port number. -/
def Run.operations (r : Run) : List Event :=
  (r.events.filter (fun e => e != Event.printf_portWarning)).map Event.forgetPort

/-- The events of `main` from the port check up to and including the `send`
call, for the accepted address `a` and port value `p`. -/
def exchangeStart (os : OS) (a p : Nat) : List Event :=
  (if p < 49152 then [Event.printf_portWarning] else [])
    ++ [Event.call_socket os.socketRet,
        Event.call_connect os.socketRet ⟨a, p % 65536⟩ os.connectRet]
    ++ (if os.connectRet = -1 then [Event.perror_connect] else [])
    ++ [Event.printf_sending,
        Event.call_send os.socketRet (message.take (strlen message + 1)) (strlen message + 1)
          os.sendRet]

/-- The events of `main` after a successful `send` up to and including the
call of `timeoutRecv`. -/
def replyWait (os : OS) : List Event :=
  [Event.printf_sent]
    ++ (if toSizeT os.sendRet ≠ toSizeT ((strlen message + 1 : Nat) : Int) then
          [Event.printf_shortSend os.sendRet (strlen message + 1)]
        else [])
    ++ [Event.printf_waiting]
    ++ (timeoutRecv os os.socketRet (fun _ => 0) 1024 ⟨10, 0⟩).events

/-- The same answers of the operating system, except that `connect` returns `c`. -/
def OS.setConnect (os : OS) (c : Int) : OS :=
  ⟨os.socketRet, c, os.sendRet, os.selectRet, os.recvRet⟩

/-- The outcome line `main` prints for the result of `timeoutRecv`. -/
def outcomeLine (reply : RecvRun) : Event :=
  if reply.ret = -2 then Event.perror_recv
  else if reply.ret = -1 then Event.printf_timeout
  else Event.printf_received (readString reply.buffer 1024 0)

/-! ## Facts about timeoutRecv -/

theorem toInt32_of_small (x : Int) (h0 : 0 ≤ x) (h1 : x < 2147483648) : toInt32 x = x := by
  unfold toInt32; omega

theorem timeoutRecv_of_timeout (os : OS) (fd : Int) (buf : Buffer) (size : Nat) (t : timeval)
    (h : os.selectRet = 0) :
    (timeoutRecv os fd buf size t).ret = -1 ∧ (timeoutRecv os fd buf size t).buffer = buf
      ∧ (timeoutRecv os fd buf size t).events = [Event.call_select (fd + 1) fd t 0] := by
  simp [timeoutRecv, h]

theorem timeoutRecv_of_wait_error (os : OS) (fd : Int) (buf : Buffer) (size : Nat) (t : timeval)
    (h : os.selectRet = -1) :
    (timeoutRecv os fd buf size t).ret = -2 ∧ (timeoutRecv os fd buf size t).buffer = buf
      ∧ (timeoutRecv os fd buf size t).events = [Event.call_select (fd + 1) fd t (-1)] := by
  simp [timeoutRecv, h]

theorem timeoutRecv_of_recv_error (os : OS) (fd : Int) (buf : Buffer) (size : Nat) (t : timeval)
    (h0 : os.selectRet ≠ 0) (h1 : os.selectRet ≠ -1) (h : os.recvRet = RecvOutcome.failed) :
    (timeoutRecv os fd buf size t).ret = -2 ∧ (timeoutRecv os fd buf size t).buffer = buf := by
  simp [timeoutRecv, recv, h0, h1, h, toInt32]

theorem timeoutRecv_of_delivery (os : OS) (fd : Int) (buf : Buffer) (size : Nat) (t : timeval)
    (len : Nat) (byte : Nat → Nat)
    (h0 : os.selectRet ≠ 0) (h1 : os.selectRet ≠ -1) (h : os.recvRet = RecvOutcome.delivered len byte)
    (hsize : min len size < 2147483648) :
    (timeoutRecv os fd buf size t).ret = ((min len size : Nat) : Int)
      ∧ (timeoutRecv os fd buf size t).buffer
          = fun i => if i < min len size then byte i else buf i := by
  have hn : toInt32 ((min len size : Nat) : Int) = ((min len size : Nat) : Int) :=
    toInt32_of_small _ (by omega) (by omega)
  have hne : ((min len size : Nat) : Int) ≠ -1 := by omega
  simp only [timeoutRecv, recv, h0, h1, h, hn, or_self, if_false, hne]
  exact ⟨trivial, trivial⟩

/-- What `recv` reports: -1, or a count that is not negative. -/
theorem recv_result (os : OS) (buf : Buffer) (size : Nat) :
    (recv os buf size).2 = -1 ∨ 0 ≤ (recv os buf size).2 := by
  unfold recv
  cases os.recvRet with
  | failed => left; rfl
  | delivered len byte => right; exact Int.natCast_nonneg _

/-- The three results of `timeoutRecv` and its effect on the buffer, when the
count that `recv` reports fits the `int` it is stored in on line 31. -/
theorem timeoutRecv_results_of_fit (os : OS) (fd : Int) (buf : Buffer) (size : Nat)
    (t : timeval) (hfit : (recv os buf size).2 < 2147483648) :
    ((timeoutRecv os fd buf size t).ret = -1 ↔ os.selectRet = 0)
      ∧ ((timeoutRecv os fd buf size t).ret = -2 ↔
          os.selectRet = -1 ∨ (os.selectRet ≠ 0 ∧ os.recvRet = RecvOutcome.failed))
      ∧ (0 ≤ (timeoutRecv os fd buf size t).ret ↔
          os.selectRet ≠ 0 ∧ os.selectRet ≠ -1
            ∧ ∃ len byte, os.recvRet = RecvOutcome.delivered len byte)
      ∧ ((timeoutRecv os fd buf size t).ret = -1 ∨ (timeoutRecv os fd buf size t).ret = -2 →
          (timeoutRecv os fd buf size t).buffer = buf) := by
  by_cases h0 : os.selectRet = 0
  · have h := timeoutRecv_of_timeout os fd buf size t h0
    simp [h.1, h.2.1, h0]
  by_cases h1 : os.selectRet = -1
  · have h := timeoutRecv_of_wait_error os fd buf size t h1
    simp [h.1, h.2.1, h1]
  cases hr : os.recvRet with
  | failed =>
    have h := timeoutRecv_of_recv_error os fd buf size t h0 h1 hr
    simp [h.1, h.2, h0, h1]
  | delivered len byte =>
    have hlt : min len size < 2147483648 := by
      have h2 : (recv os buf size).2 = ((min len size : Nat) : Int) := by simp [recv, hr]
      rw [h2] at hfit
      omega
    have h := timeoutRecv_of_delivery os fd buf size t len byte h0 h1 hr hlt
    rw [h.1]
    refine ⟨?_, ?_, ?_, ?_⟩
    · simp [h0]; omega
    · simp [h0, h1]; omega
    · simp [h0, h1]
    · intro hc; omega

/-- C1: `timeoutRecv` returns -1 when `select` returns 0, -2 when `select`
returns -1 or `recv` returns -1, and otherwise the number of bytes received:
for every buffer size and every count `n ≥ 0` that `recv` reports after a
successful wait, the value returned is `n`.  The count is one that a receive
can report, a value of `int` range: it passes through the `int` of line 31. -/
theorem timeoutRecv_returns (os : OS) (fd : Int) (buf : Buffer) (size : Nat) (t : timeval)
    (hfit : (recv os buf size).2 < 2147483648) :
    (os.selectRet = 0 → (timeoutRecv os fd buf size t).ret = -1)
      ∧ (os.selectRet = -1 → (timeoutRecv os fd buf size t).ret = -2)
      ∧ (os.selectRet ≠ 0 → os.selectRet ≠ -1 → (recv os buf size).2 = -1 →
          (timeoutRecv os fd buf size t).ret = -2)
      ∧ (∀ n : Int, 0 ≤ n → os.selectRet ≠ 0 → os.selectRet ≠ -1 →
          (recv os buf size).2 = n → (timeoutRecv os fd buf size t).ret = n) := by
  refine ⟨?_, ?_, ?_, ?_⟩
  · intro h; exact (timeoutRecv_of_timeout os fd buf size t h).1
  · intro h; exact (timeoutRecv_of_wait_error os fd buf size t h).1
  · intro h0 h1 hr
    simp [timeoutRecv, h0, h1, hr, toInt32]
  · intro n hn h0 h1 hr
    have hsmall : toInt32 n = n := toInt32_of_small n hn (by rw [← hr]; exact hfit)
    have hne : n ≠ -1 := by omega
    simp [timeoutRecv, h0, h1, hr, hsmall, hne]

/-- C1 at a concrete input: after a successful wait, a receive of 5 bytes into
a buffer of 1024 bytes makes `timeoutRecv` return 5. -/
theorem timeoutRecv_returns_witness :
    (timeoutRecv ⟨3, 0, 26, 1, .delivered 5 (fun _ => 65)⟩ 3 (fun _ => 0) 1024 ⟨10, 0⟩).ret = 5 :=
  (timeoutRecv_returns ⟨3, 0, 26, 1, .delivered 5 (fun _ => 65)⟩ 3 (fun _ => 0) 1024 ⟨10, 0⟩
    (by decide)).2.2.2 5 (by decide) (by decide) (by decide) (by decide)

/-- C2: the three outcomes of `timeoutRecv` are disjoint and exhaustive.  The
value returned is -1 exactly when the wait timed out, -2 exactly when the wait
or the receive failed, and non-negative exactly when data was received; a
zero-length datagram received after a successful wait returns 0, neither the
timeout value nor the error value.  The count that `recv` reports is one of
`int` range, as on line 31. -/
theorem timeoutRecv_outcomes_disjoint (os : OS) (fd : Int) (buf : Buffer) (size : Nat)
    (t : timeval) (hfit : (recv os buf size).2 < 2147483648) :
    ((timeoutRecv os fd buf size t).ret = -1 ↔ os.selectRet = 0)
      ∧ ((timeoutRecv os fd buf size t).ret = -2 ↔
          os.selectRet = -1 ∨ (os.selectRet ≠ 0 ∧ os.recvRet = RecvOutcome.failed))
      ∧ (0 ≤ (timeoutRecv os fd buf size t).ret ↔
          os.selectRet ≠ 0 ∧ os.selectRet ≠ -1
            ∧ ∃ len byte, os.recvRet = RecvOutcome.delivered len byte)
      ∧ ((timeoutRecv os fd buf size t).ret = -1 ∨ (timeoutRecv os fd buf size t).ret = -2
          ∨ 0 ≤ (timeoutRecv os fd buf size t).ret)
      ∧ (∀ byte, os.selectRet ≠ 0 → os.selectRet ≠ -1 →
          os.recvRet = RecvOutcome.delivered 0 byte →
          (timeoutRecv os fd buf size t).ret = 0 ∧ (timeoutRecv os fd buf size t).ret ≠ -1
            ∧ (timeoutRecv os fd buf size t).ret ≠ -2) := by
  have h := timeoutRecv_results_of_fit os fd buf size t hfit
  refine ⟨h.1, h.2.1, h.2.2.1, ?_, ?_⟩
  · by_cases h0 : os.selectRet = 0
    · left; exact h.1.2 h0
    by_cases h1 : os.selectRet = -1
    · right; left; exact h.2.1.2 (Or.inl h1)
    cases hr : os.recvRet with
    | failed => right; left; exact h.2.1.2 (Or.inr ⟨h0, hr⟩)
    | delivered len byte => right; right; exact h.2.2.1.2 ⟨h0, h1, len, byte, hr⟩
  · intro byte h0 h1 hr
    have hd := timeoutRecv_of_delivery os fd buf size t 0 byte h0 h1 hr (by simp)
    have hz : (timeoutRecv os fd buf size t).ret = 0 := by simpa using hd.1
    rw [hz]
    exact ⟨rfl, by decide, by decide⟩

/-- C2 at a concrete input: a zero-length datagram received after a successful
wait returns 0, not the timeout value and not the error value. -/
theorem timeoutRecv_outcomes_disjoint_witness :
    (timeoutRecv ⟨3, 0, 26, 1, .delivered 0 (fun _ => 0)⟩ 3 (fun _ => 0) 1024 ⟨10, 0⟩).ret = 0
      ∧ (timeoutRecv ⟨3, 0, 26, 1, .delivered 0 (fun _ => 0)⟩ 3 (fun _ => 0) 1024 ⟨10, 0⟩).ret
          ≠ -1
      ∧ (timeoutRecv ⟨3, 0, 26, 1, .delivered 0 (fun _ => 0)⟩ 3 (fun _ => 0) 1024 ⟨10, 0⟩).ret
          ≠ -2 :=
  (timeoutRecv_outcomes_disjoint ⟨3, 0, 26, 1, .delivered 0 (fun _ => 0)⟩ 3 (fun _ => 0) 1024
    ⟨10, 0⟩ (by decide)).2.2.2.2 (fun _ => 0) (by decide) (by decide) rfl

/-- C3: one call of `timeoutRecv` calls `recv` once when the wait reports the
socket readable and not at all when the wait times out or fails, whatever
`recv` answers; it makes one `select` call first and nothing else. -/
theorem timeoutRecv_single_receive (os : OS) (fd : Int) (buf : Buffer) (size : Nat)
    (t : timeval) :
    ((timeoutRecv os fd buf size t).events.filter Event.isRecv).length
        = (if os.selectRet = 0 ∨ os.selectRet = -1 then 0 else 1)
      ∧ (timeoutRecv os fd buf size t).events
        = Event.call_select (fd + 1) fd t os.selectRet ::
            (if os.selectRet = 0 ∨ os.selectRet = -1 then []
             else [Event.call_recv fd size (recv os buf size).2]) := by
  unfold timeoutRecv
  by_cases h : os.selectRet = 0 ∨ os.selectRet = -1
  · simp [h, Event.isRecv]
  · simp only [h, if_false]
    split_ifs <;> simp [Event.isRecv]

/-- C9: `timeoutRecv` leaves the caller's buffer as it was unless data is
received.  For every initial content of the buffer, when the call returns the
timeout value -1 or the error value -2 the buffer afterwards equals the buffer
before; a timed-out or failed wait never reaches `recv`; and a buffer that
differs afterwards belongs to a call that received data and returned its
count.  The count that `recv` reports is one of `int` range, as on line 31. -/
theorem timeoutRecv_buffer_untouched (os : OS) (fd : Int) (buf : Buffer) (size : Nat)
    (t : timeval) (hfit : (recv os buf size).2 < 2147483648) :
    ((timeoutRecv os fd buf size t).ret = -1 ∨ (timeoutRecv os fd buf size t).ret = -2 →
        (timeoutRecv os fd buf size t).buffer = buf)
      ∧ (os.selectRet = 0 ∨ os.selectRet = -1 → (timeoutRecv os fd buf size t).buffer = buf)
      ∧ ((timeoutRecv os fd buf size t).buffer ≠ buf →
          0 ≤ (timeoutRecv os fd buf size t).ret
            ∧ ∃ len byte, os.recvRet = RecvOutcome.delivered len byte
                ∧ (timeoutRecv os fd buf size t).ret = ((min len size : Nat) : Int)) := by
  have h := timeoutRecv_results_of_fit os fd buf size t hfit
  refine ⟨h.2.2.2, ?_, ?_⟩
  · rintro (h0 | h1)
    · exact (timeoutRecv_of_timeout os fd buf size t h0).2.1
    · exact (timeoutRecv_of_wait_error os fd buf size t h1).2.1
  · intro hne
    by_cases h0 : os.selectRet = 0
    · exact absurd (timeoutRecv_of_timeout os fd buf size t h0).2.1 hne
    by_cases h1 : os.selectRet = -1
    · exact absurd (timeoutRecv_of_wait_error os fd buf size t h1).2.1 hne
    cases hr : os.recvRet with
    | failed => exact absurd (timeoutRecv_of_recv_error os fd buf size t h0 h1 hr).2 hne
    | delivered len byte =>
      have hlt : min len size < 2147483648 := by
        have h2 : (recv os buf size).2 = ((min len size : Nat) : Int) := by simp [recv, hr]
        rw [h2] at hfit
        omega
      have hd := timeoutRecv_of_delivery os fd buf size t len byte h0 h1 hr hlt
      exact ⟨h.2.2.1.2 ⟨h0, h1, len, byte, hr⟩, len, byte, rfl, hd.1⟩

/-- C9 at a concrete input: after a wait that timed out the buffer, filled with
the byte 7 before the call, is the same afterwards. -/
theorem timeoutRecv_buffer_untouched_witness :
    (timeoutRecv ⟨3, 0, 26, 0, .delivered 5 (fun _ => 65)⟩ 3 (fun _ => 7) 1024 ⟨10, 0⟩).buffer
      = (fun _ => 7) :=
  (timeoutRecv_buffer_untouched ⟨3, 0, 26, 0, .delivered 5 (fun _ => 65)⟩ 3 (fun _ => 7) 1024
    ⟨10, 0⟩ (by decide)).1 (Or.inl (by decide))

/-- The shape of the events of `timeoutRecv`: the `select` call, followed by
the `recv` call when the wait neither timed out nor failed. -/
theorem timeoutRecv_events (os : OS) (fd : Int) (buf : Buffer) (size : Nat) (t : timeval) :
    (timeoutRecv os fd buf size t).events
      = Event.call_select (fd + 1) fd t os.selectRet ::
          (if os.selectRet = 0 ∨ os.selectRet = -1 then []
           else [Event.call_recv fd size (recv os buf size).2]) := by
  unfold timeoutRecv
  by_cases h : os.selectRet = 0 ∨ os.selectRet = -1
  · simp [h]
  · simp only [h, if_false]
    split_ifs <;> simp

theorem main_of_argc (libc : Libc) (os : OS) (argv : List String) (h3 : argv.length ≠ 3) :
    main libc os argv = ⟨[Event.printf_usage argv.head?], none⟩ := by
  simp only [main, h3, ne_eq, not_false_eq_true, if_true]

theorem main_of_bad_address (libc : Libc) (os : OS) (argv : List String)
    (h3 : argv.length = 3) (ha : libc.inet_pton (argv.getD 1 "") = none) :
    main libc os argv = ⟨[Event.printf_addrError], none⟩ := by
  have h3n : ¬ (argv.length ≠ 3) := by simp [h3]
  simp only [main, h3n, ha, if_false]

theorem main_of_bad_port (libc : Libc) (os : OS) (argv : List String) (a : Nat)
    (h3 : argv.length = 3) (ha : libc.inet_pton (argv.getD 1 "") = some a)
    (hp : 65535 < libc.strtoul (argv.getD 2 "")) :
    main libc os argv = ⟨[Event.printf_portError], none⟩ := by
  have h3n : ¬ (argv.length ≠ 3) := by simp [h3]
  simp only [main, h3n, ha, if_false, gt_iff_lt, hp, if_true]

theorem main_of_socket_error (libc : Libc) (os : OS) (argv : List String) (a : Nat)
    (h3 : argv.length = 3) (ha : libc.inet_pton (argv.getD 1 "") = some a)
    (hp : libc.strtoul (argv.getD 2 "") ≤ 65535) (hs : os.socketRet = -1) :
    main libc os argv =
      ⟨(if libc.strtoul (argv.getD 2 "") < 49152 then [Event.printf_portWarning] else [])
        ++ [Event.call_socket os.socketRet, Event.perror_socket], none⟩ := by
  have h3n : ¬ (argv.length ≠ 3) := by simp [h3]
  have hp2 : ¬ (65535 < libc.strtoul (argv.getD 2 "")) := by omega
  simp only [main, h3n, ha, if_false, gt_iff_lt, hp2, hs, if_true]
  simp

theorem main_of_send_error (libc : Libc) (os : OS) (argv : List String) (a : Nat)
    (h3 : argv.length = 3) (ha : libc.inet_pton (argv.getD 1 "") = some a)
    (hp : libc.strtoul (argv.getD 2 "") ≤ 65535) (hs : os.socketRet ≠ -1)
    (hsend : os.sendRet = -1) :
    main libc os argv =
      ⟨exchangeStart os a (libc.strtoul (argv.getD 2 "")) ++ [Event.perror_send], none⟩ := by
  have h3n : ¬ (argv.length ≠ 3) := by simp [h3]
  have hp2 : ¬ (65535 < libc.strtoul (argv.getD 2 "")) := by omega
  simp only [main, h3n, ha, if_false, gt_iff_lt, hp2, hs, hsend, if_true, exchangeStart]
  simp

theorem main_of_wait (libc : Libc) (os : OS) (argv : List String) (a : Nat)
    (h3 : argv.length = 3) (ha : libc.inet_pton (argv.getD 1 "") = some a)
    (hp : libc.strtoul (argv.getD 2 "") ≤ 65535) (hs : os.socketRet ≠ -1)
    (hsend : os.sendRet ≠ -1) :
    main libc os argv =
      ⟨exchangeStart os a (libc.strtoul (argv.getD 2 "")) ++ replyWait os
          ++ [outcomeLine (timeoutRecv os os.socketRet (fun _ => 0) 1024 ⟨10, 0⟩)],
       some (timeoutRecv os os.socketRet (fun _ => 0) 1024 ⟨10, 0⟩).ret⟩ := by
  have h3n : ¬ (argv.length ≠ 3) := by simp [h3]
  have hp2 : ¬ (65535 < libc.strtoul (argv.getD 2 "")) := by omega
  simp only [main, h3n, ha, if_false, gt_iff_lt, hp2, hs, hsend, exchangeStart, replyWait,
    outcomeLine]
  split_ifs <;> simp

/-- The exit paths of `main`, each with the condition under which it is taken
and the run it produces. -/
theorem main_cases (libc : Libc) (os : OS) (argv : List String) :
    (argv.length ≠ 3 ∧ main libc os argv = ⟨[Event.printf_usage argv.head?], none⟩)
    ∨ (argv.length = 3 ∧ libc.inet_pton (argv.getD 1 "") = none
        ∧ main libc os argv = ⟨[Event.printf_addrError], none⟩)
    ∨ (∃ a, argv.length = 3 ∧ libc.inet_pton (argv.getD 1 "") = some a
        ∧ 65535 < libc.strtoul (argv.getD 2 "")
        ∧ main libc os argv = ⟨[Event.printf_portError], none⟩)
    ∨ (∃ a, argv.length = 3 ∧ libc.inet_pton (argv.getD 1 "") = some a
        ∧ libc.strtoul (argv.getD 2 "") ≤ 65535 ∧ os.socketRet = -1
        ∧ main libc os argv =
            ⟨(if libc.strtoul (argv.getD 2 "") < 49152 then [Event.printf_portWarning] else [])
              ++ [Event.call_socket os.socketRet, Event.perror_socket], none⟩)
    ∨ (∃ a, argv.length = 3 ∧ libc.inet_pton (argv.getD 1 "") = some a
        ∧ libc.strtoul (argv.getD 2 "") ≤ 65535 ∧ os.socketRet ≠ -1 ∧ os.sendRet = -1
        ∧ main libc os argv =
            ⟨exchangeStart os a (libc.strtoul (argv.getD 2 "")) ++ [Event.perror_send], none⟩)
    ∨ (∃ a last, argv.length = 3 ∧ libc.inet_pton (argv.getD 1 "") = some a
        ∧ libc.strtoul (argv.getD 2 "") ≤ 65535 ∧ os.socketRet ≠ -1 ∧ os.sendRet ≠ -1
        ∧ (((timeoutRecv os os.socketRet (fun _ => 0) 1024 ⟨10, 0⟩).ret = -2
              ∧ last = Event.perror_recv)
            ∨ ((timeoutRecv os os.socketRet (fun _ => 0) 1024 ⟨10, 0⟩).ret = -1
              ∧ last = Event.printf_timeout)
            ∨ ((timeoutRecv os os.socketRet (fun _ => 0) 1024 ⟨10, 0⟩).ret ≠ -2
              ∧ (timeoutRecv os os.socketRet (fun _ => 0) 1024 ⟨10, 0⟩).ret ≠ -1
              ∧ last = Event.printf_received
                  (readString (timeoutRecv os os.socketRet (fun _ => 0) 1024 ⟨10, 0⟩).buffer
                    1024 0)))
        ∧ main libc os argv =
            ⟨exchangeStart os a (libc.strtoul (argv.getD 2 "")) ++ replyWait os ++ [last],
             some (timeoutRecv os os.socketRet (fun _ => 0) 1024 ⟨10, 0⟩).ret⟩) := by
  by_cases h3 : argv.length = 3
  swap
  · left; exact ⟨h3, main_of_argc libc os argv h3⟩
  right
  cases ha : libc.inet_pton (argv.getD 1 "") with
  | none => left; exact ⟨h3, rfl, main_of_bad_address libc os argv h3 ha⟩
  | some a =>
    right
    by_cases hp : 65535 < libc.strtoul (argv.getD 2 "")
    · left; exact ⟨a, h3, rfl, hp, main_of_bad_port libc os argv a h3 ha hp⟩
    right
    have hp2 : libc.strtoul (argv.getD 2 "") ≤ 65535 := by omega
    by_cases hs : os.socketRet = -1
    · left; exact ⟨a, h3, rfl, hp2, hs, main_of_socket_error libc os argv a h3 ha hp2 hs⟩
    right
    by_cases hsend : os.sendRet = -1
    · left; exact ⟨a, h3, rfl, hp2, hs, hsend, main_of_send_error libc os argv a h3 ha hp2 hs hsend⟩
    right
    refine ⟨a, _, h3, rfl, hp2, hs, hsend, ?_, main_of_wait libc os argv a h3 ha hp2 hs hsend⟩
    unfold outcomeLine
    by_cases h2 : (timeoutRecv os os.socketRet (fun _ => 0) 1024 ⟨10, 0⟩).ret = -2
    · left; exact ⟨h2, by simp [h2]⟩
    by_cases h1 : (timeoutRecv os os.socketRet (fun _ => 0) 1024 ⟨10, 0⟩).ret = -1
    · right; left; exact ⟨h1, by simp [h1]⟩
    · right; right; exact ⟨h2, h1, by simp [h1, h2]⟩

/-- C4, as stated, fails: in the run where every call succeeds and a reply of
three bytes arrives, the socket 3 is created and no close of it is performed. -/
theorem main_success_run_without_close :
    Event.call_socket 3 ∈ (main posixLibc ⟨3, 0, 26, 1, .delivered 3 (fun _ => 65)⟩
        ["client", "127.0.0.1", "50000"]).events
      ∧ Event.call_close 3 ∉ (main posixLibc ⟨3, 0, 26, 1, .delivered 3 (fun _ => 65)⟩
        ["client", "127.0.0.1", "50000"]).events := by
  decide

/-- C4, amended: `main` performs no close on any exit path; whatever the
arguments and the results of the calls, the sequence of operations performed
before `main` returns contains no close of any descriptor. -/
theorem main_never_closes (libc : Libc) (os : OS) (argv : List String) (fd : Int) :
    Event.call_close fd ∉ (main libc os argv).events := by
  rcases main_cases libc os argv with h | h | ⟨a, h⟩ | ⟨a, h⟩ | ⟨a, h⟩ | ⟨a, last, h⟩
  · simp [h.2]
  · simp [h.2.2]
  · simp [h.2.2.2]
  · simp [h.2.2.2.2]
  · simp [h.2.2.2.2.2, exchangeStart]
  · obtain ⟨-, -, -, -, -, hlast, hm⟩ := h
    rcases hlast with ⟨-, rfl⟩ | ⟨-, rfl⟩ | ⟨-, -, rfl⟩ <;>
      simp [hm, exchangeStart, replyWait, timeoutRecv_events]

theorem strlen_message : strlen message = 25 := by decide

/-- C5: the reply wait takes place exactly when `send` returned a value other
than -1.  After a `send` that returned -1 the run has no wait and no receive
and ends with the send error; after a `send` that returned a count other than
the request length `strlen(message) + 1` the short-send notice is printed and
the wait still takes place. -/
theorem main_wait_iff_send_succeeded (libc : Libc) (os : OS) (argv : List String) :
    (((∃ nfds fd t r, Event.call_select nfds fd t r ∈ (main libc os argv).events) ↔
        ∃ fd p n v, Event.call_send fd p n v ∈ (main libc os argv).events ∧ v ≠ -1)
      ∧ ((main libc os argv).waitResult.isSome = true ↔
        ∃ fd p n v, Event.call_send fd p n v ∈ (main libc os argv).events ∧ v ≠ -1))
    ∧ (∀ fd p n, Event.call_send fd p n (-1) ∈ (main libc os argv).events →
        (main libc os argv).waitResult = none
          ∧ (∀ nfds sfd t r, Event.call_select nfds sfd t r ∉ (main libc os argv).events)
          ∧ (∀ rfd size r, Event.call_recv rfd size r ∉ (main libc os argv).events)
          ∧ (main libc os argv).events.getLast? = some Event.perror_send)
    ∧ (∀ fd p n v, Event.call_send fd p n v ∈ (main libc os argv).events →
        v ≠ -1 → isSSizeT v → v ≠ ((strlen message + 1 : Nat) : Int) →
        Event.printf_shortSend v (strlen message + 1) ∈ (main libc os argv).events
          ∧ (main libc os argv).waitResult.isSome = true
          ∧ ∃ nfds sfd t r, Event.call_select nfds sfd t r ∈ (main libc os argv).events) := by
  rcases main_cases libc os argv with h | h | ⟨a, h⟩ | ⟨a, h⟩ | ⟨a, h⟩ | ⟨a, last, h⟩
  · simp [h.2]
  · simp [h.2.2]
  · simp [h.2.2.2]
  · simp [h.2.2.2.2]
  · obtain ⟨-, -, -, -, hsend, hm⟩ := h
    refine ⟨?_, ?_, ?_⟩
    · simp [hm, exchangeStart, hsend]
    · intro fd p n _
      refine ⟨by simp [hm], ?_, ?_, ?_⟩
      · simp [hm, exchangeStart]
      · simp [hm, exchangeStart]
      · rw [hm]; exact List.getLast?_concat _
    · intro fd p n v hv hne
      simp [hm, exchangeStart] at hv
      omega
  · obtain ⟨-, -, -, -, hsend, hlast, hm⟩ := h
    have hsel : ∃ nfds sfd t r, Event.call_select nfds sfd t r ∈ (main libc os argv).events :=
      ⟨os.socketRet + 1, os.socketRet, ⟨10, 0⟩, os.selectRet,
        by simp [hm, replyWait, timeoutRecv_events]⟩
    have hsnd : ∃ fd p n v, Event.call_send fd p n v ∈ (main libc os argv).events ∧ v ≠ -1 :=
      ⟨os.socketRet, message.take (strlen message + 1), strlen message + 1, os.sendRet,
        by simp [hm, exchangeStart], hsend⟩
    have hval : ∀ fd p n v, Event.call_send fd p n v ∈ (main libc os argv).events →
        v = os.sendRet := by
      intro fd p n v hv
      rcases hlast with ⟨-, rfl⟩ | ⟨-, rfl⟩ | ⟨-, -, rfl⟩ <;>
        simp [hm, exchangeStart, replyWait, timeoutRecv_events] at hv <;> exact hv.2.2.2
    refine ⟨⟨⟨fun _ => hsnd, fun _ => hsel⟩, ?_⟩, ?_, ?_⟩
    · exact ⟨fun _ => hsnd, fun _ => by rw [hm]; rfl⟩
    · intro fd p n hv
      exact absurd (hval _ _ _ _ hv).symm hsend
    · intro fd p n v hv hne hrange hlen
      have hv2 := hval _ _ _ _ hv
      subst hv2
      have hshort : toSizeT os.sendRet ≠ toSizeT ((strlen message + 1 : Nat) : Int) := by
        rw [strlen_message] at hlen ⊢
        unfold toSizeT
        unfold isSSizeT at hrange
        push_cast at hlen ⊢
        omega
      refine ⟨?_, by simp [hm], hsel⟩
      rw [hm]
      apply List.mem_append_left
      apply List.mem_append_right
      unfold replyWait
      rw [if_pos hshort]
      simp

theorem message_request : message.take (strlen message + 1) = message ∧ strlen message + 1 = 26 := by
  decide

theorem send_mem_exchangeStart (os : OS) (a p : Nat) :
    Event.call_send os.socketRet message 26 os.sendRet ∈ exchangeStart os a p := by
  unfold exchangeStart
  rw [message_request.1, message_request.2]
  simp

theorem filter_exchangeStart_setConnect (os : OS) (c : Int) (a p : Nat) :
    (exchangeStart (os.setConnect c) a p).filter (fun e => !e.isConnectStep)
      = (exchangeStart os a p).filter (fun e => !e.isConnectStep) := by
  unfold exchangeStart OS.setConnect
  split_ifs <;> simp [List.filter_cons, Event.isConnectStep]

theorem exchangeStart_of_connect_error (os : OS) (a p : Nat) (h : os.connectRet = -1) :
    exchangeStart os a p
      = ((if p < 49152 then [Event.printf_portWarning] else [])
          ++ [Event.call_socket os.socketRet])
        ++ [Event.call_connect os.socketRet ⟨a, p % 65536⟩ (-1), Event.perror_connect,
            Event.printf_sending, Event.call_send os.socketRet message 26 os.sendRet] := by
  unfold exchangeStart
  rw [message_request.1, message_request.2]
  simp [h]

/-- C6: a failed `connect` is reported and nothing else changes.  In every run
in which the socket is created `connect` is called on it, and the 26 bytes of
the request are sent on that socket.  The error line of `connect` is printed
exactly when the arguments are accepted, the socket is created and `connect`
returned -1, directly after the call and directly before the request is
announced and sent; the request is sent exactly when the arguments are
accepted and the socket is created, whatever `connect` returned.  Replacing the
result of `connect` by any other value leaves the run the same apart from the
connect call and its error line: the same events in the same order and the
same result of the wait. -/
theorem main_connect_result_immaterial (libc : Libc) (os : OS) (argv : List String) (c : Int) :
    (∀ fd, Event.call_socket fd ∈ (main libc os argv).events → fd ≠ -1 →
        Event.call_send fd message 26 os.sendRet ∈ (main libc os argv).events)
      ∧ (main libc (os.setConnect c) argv).events.filter (fun e => !e.isConnectStep)
          = (main libc os argv).events.filter (fun e => !e.isConnectStep)
      ∧ (main libc (os.setConnect c) argv).waitResult = (main libc os argv).waitResult
      ∧ (∀ fd, Event.call_socket fd ∈ (main libc os argv).events → fd ≠ -1 →
          ∃ addr, Event.call_connect fd addr os.connectRet ∈ (main libc os argv).events)
      ∧ (∀ fd addr r, Event.call_connect fd addr r ∈ (main libc os argv).events →
          fd = os.socketRet ∧ r = os.connectRet ∧ fd ≠ -1)
      ∧ (Event.perror_connect ∈ (main libc os argv).events ↔
          ∃ fd addr, Event.call_connect fd addr (-1) ∈ (main libc os argv).events)
      ∧ (os.connectRet = -1 →
          ∀ fd, Event.call_socket fd ∈ (main libc os argv).events → fd ≠ -1 →
          ∃ before addr after, (main libc os argv).events
            = before ++ [Event.call_connect fd addr (-1), Event.perror_connect,
                Event.printf_sending, Event.call_send fd message 26 os.sendRet] ++ after)
      ∧ (Event.perror_connect ∈ (main libc os argv).events ↔
          argv.length = 3 ∧ (libc.inet_pton (argv.getD 1 "")).isSome = true
            ∧ libc.strtoul (argv.getD 2 "") ≤ 65535 ∧ os.socketRet ≠ -1 ∧ os.connectRet = -1)
      ∧ (Event.call_send os.socketRet message 26 os.sendRet ∈ (main libc os argv).events ↔
          argv.length = 3 ∧ (libc.inet_pton (argv.getD 1 "")).isSome = true
            ∧ libc.strtoul (argv.getD 2 "") ≤ 65535 ∧ os.socketRet ≠ -1) := by
  refine ⟨?_, ?_, ?_, ?_, ?_, ?_, ?_, ?_, ?_⟩
  · intro fd hfd hne
    rcases main_cases libc os argv with h | h | ⟨a, h⟩ | ⟨a, h⟩ | ⟨a, h⟩ | ⟨a, last, h⟩
    · simp [h.2] at hfd
    · simp [h.2.2] at hfd
    · simp [h.2.2.2] at hfd
    · obtain ⟨-, -, -, hs, hm⟩ := h
      simp [hm] at hfd
      omega
    · obtain ⟨-, -, -, -, -, hm⟩ := h
      rw [hm] at hfd ⊢
      simp [exchangeStart] at hfd
      subst hfd
      exact List.mem_append_left _ (send_mem_exchangeStart os a _)
    · obtain ⟨-, -, -, -, -, hlast, hm⟩ := h
      rw [hm] at hfd ⊢
      have hfd2 : fd = os.socketRet := by
        rcases hlast with ⟨-, rfl⟩ | ⟨-, rfl⟩ | ⟨-, -, rfl⟩ <;>
          simpa [exchangeStart, replyWait, timeoutRecv_events] using hfd
      subst hfd2
      exact List.mem_append_left _ (List.mem_append_left _ (send_mem_exchangeStart os a _))
  · by_cases h3 : argv.length = 3
    swap
    · rw [main_of_argc libc _ argv h3, main_of_argc libc os argv h3]
    cases ha : libc.inet_pton (argv.getD 1 "") with
    | none =>
      rw [main_of_bad_address libc _ argv h3 ha, main_of_bad_address libc os argv h3 ha]
    | some a =>
      by_cases hp : 65535 < libc.strtoul (argv.getD 2 "")
      · rw [main_of_bad_port libc _ argv a h3 ha hp, main_of_bad_port libc os argv a h3 ha hp]
      have hp2 : libc.strtoul (argv.getD 2 "") ≤ 65535 := by omega
      by_cases hs : os.socketRet = -1
      · rw [main_of_socket_error libc (os.setConnect c) argv a h3 ha hp2 hs,
          main_of_socket_error libc os argv a h3 ha hp2 hs]
        rfl
      by_cases hsend : os.sendRet = -1
      · rw [main_of_send_error libc (os.setConnect c) argv a h3 ha hp2 hs hsend,
          main_of_send_error libc os argv a h3 ha hp2 hs hsend]
        simp only [List.filter_append, filter_exchangeStart_setConnect]
      · rw [main_of_wait libc (os.setConnect c) argv a h3 ha hp2 hs hsend,
          main_of_wait libc os argv a h3 ha hp2 hs hsend]
        simp only [List.filter_append, filter_exchangeStart_setConnect]
        rfl
  · by_cases h3 : argv.length = 3
    swap
    · rw [main_of_argc libc _ argv h3, main_of_argc libc os argv h3]
    cases ha : libc.inet_pton (argv.getD 1 "") with
    | none =>
      rw [main_of_bad_address libc _ argv h3 ha, main_of_bad_address libc os argv h3 ha]
    | some a =>
      by_cases hp : 65535 < libc.strtoul (argv.getD 2 "")
      · rw [main_of_bad_port libc _ argv a h3 ha hp, main_of_bad_port libc os argv a h3 ha hp]
      have hp2 : libc.strtoul (argv.getD 2 "") ≤ 65535 := by omega
      by_cases hs : os.socketRet = -1
      · rw [main_of_socket_error libc (os.setConnect c) argv a h3 ha hp2 hs,
          main_of_socket_error libc os argv a h3 ha hp2 hs]
      by_cases hsend : os.sendRet = -1
      · rw [main_of_send_error libc (os.setConnect c) argv a h3 ha hp2 hs hsend,
          main_of_send_error libc os argv a h3 ha hp2 hs hsend]
      · rw [main_of_wait libc (os.setConnect c) argv a h3 ha hp2 hs hsend,
          main_of_wait libc os argv a h3 ha hp2 hs hsend]
        rfl
  · intro fd hfd hne
    rcases main_cases libc os argv with h | h | ⟨a, h⟩ | ⟨a, h⟩ | ⟨a, h⟩ | ⟨a, last, h⟩
    · simp [h.2] at hfd
    · simp [h.2.2] at hfd
    · simp [h.2.2.2] at hfd
    · obtain ⟨-, -, -, hs, hm⟩ := h
      simp [hm] at hfd
      omega
    · obtain ⟨-, -, -, -, -, hm⟩ := h
      rw [hm] at hfd ⊢
      simp [exchangeStart] at hfd
      subst hfd
      exact ⟨⟨a, libc.strtoul (argv.getD 2 "") % 65536⟩, by simp [exchangeStart]⟩
    · obtain ⟨-, -, -, -, -, hlast, hm⟩ := h
      rw [hm] at hfd ⊢
      have hfd2 : fd = os.socketRet := by
        rcases hlast with ⟨-, rfl⟩ | ⟨-, rfl⟩ | ⟨-, -, rfl⟩ <;>
          simpa [exchangeStart, replyWait, timeoutRecv_events] using hfd
      subst hfd2
      exact ⟨⟨a, libc.strtoul (argv.getD 2 "") % 65536⟩, by simp [exchangeStart]⟩
  · intro fd addr r hc
    rcases main_cases libc os argv with h | h | ⟨a, h⟩ | ⟨a, h⟩ | ⟨a, h⟩ | ⟨a, last, h⟩
    · simp [h.2] at hc
    · simp [h.2.2] at hc
    · simp [h.2.2.2] at hc
    · simp [h.2.2.2.2] at hc
    · obtain ⟨-, -, -, hs, -, hm⟩ := h
      simp [hm, exchangeStart] at hc
      exact ⟨hc.1, hc.2.2, by rw [hc.1]; exact hs⟩
    · obtain ⟨-, -, -, hs, -, hlast, hm⟩ := h
      have hc2 : fd = os.socketRet ∧ r = os.connectRet := by
        rcases hlast with ⟨-, rfl⟩ | ⟨-, rfl⟩ | ⟨-, -, rfl⟩ <;>
          simp [hm, exchangeStart, replyWait, timeoutRecv_events] at hc <;>
          exact ⟨hc.1, hc.2.2⟩
      exact ⟨hc2.1, hc2.2, by rw [hc2.1]; exact hs⟩
  · rcases main_cases libc os argv with h | h | ⟨a, h⟩ | ⟨a, h⟩ | ⟨a, h⟩ | ⟨a, last, h⟩
    · simp [h.2]
    · simp [h.2.2]
    · simp [h.2.2.2]
    · simp [h.2.2.2.2]
    · obtain ⟨-, -, -, -, -, hm⟩ := h
      simp [hm, exchangeStart, eq_comm]
    · obtain ⟨-, -, -, -, -, hlast, hm⟩ := h
      rcases hlast with ⟨-, rfl⟩ | ⟨-, rfl⟩ | ⟨-, -, rfl⟩ <;>
        simp [hm, exchangeStart, replyWait, timeoutRecv_events, eq_comm]
  · intro hconn fd hfd hne
    rcases main_cases libc os argv with h | h | ⟨a, h⟩ | ⟨a, h⟩ | ⟨a, h⟩ | ⟨a, last, h⟩
    · simp [h.2] at hfd
    · simp [h.2.2] at hfd
    · simp [h.2.2.2] at hfd
    · obtain ⟨-, -, -, hs, hm⟩ := h
      simp [hm] at hfd
      omega
    · obtain ⟨-, -, -, -, -, hm⟩ := h
      have hfd2 : fd = os.socketRet := by
        simpa [hm, exchangeStart] using hfd
      subst hfd2
      rw [hm, exchangeStart_of_connect_error os a _ hconn]
      exact ⟨_, _, [Event.perror_send], rfl⟩
    · obtain ⟨-, -, -, -, -, hlast, hm⟩ := h
      have hfd2 : fd = os.socketRet := by
        rcases hlast with ⟨-, rfl⟩ | ⟨-, rfl⟩ | ⟨-, -, rfl⟩ <;>
          simpa [hm, exchangeStart, replyWait, timeoutRecv_events] using hfd
      subst hfd2
      rw [hm, exchangeStart_of_connect_error os a _ hconn]
      exact ⟨(if libc.strtoul (argv.getD 2 "") < 49152 then [Event.printf_portWarning] else [])
          ++ [Event.call_socket os.socketRet],
        ⟨a, libc.strtoul (argv.getD 2 "") % 65536⟩, replyWait os ++ [last],
        by simp only [List.append_assoc]⟩
  · rcases main_cases libc os argv with h | h | ⟨a, h⟩ | ⟨a, h⟩ | ⟨a, h⟩ | ⟨a, last, h⟩
    · simp [h.2, h.1]
    · simp [-List.getD_eq_getElem?_getD, h.2.2, h.2.1]
    · obtain ⟨h3, ha, hp, hm⟩ := h
      have hp2 : ¬ libc.strtoul (argv.getD 2 "") ≤ 65535 := by omega
      simp [-List.getD_eq_getElem?_getD, hm, hp2]
    · obtain ⟨h3, ha, hp, hs, hm⟩ := h
      simp [-List.getD_eq_getElem?_getD, hm, hs]
    · obtain ⟨h3, ha, hp, hs, hsend, hm⟩ := h
      simp [-List.getD_eq_getElem?_getD, hm, h3, ha, hp, hs, exchangeStart]
    · obtain ⟨h3, ha, hp, hs, hsend, hlast, hm⟩ := h
      rcases hlast with ⟨-, rfl⟩ | ⟨-, rfl⟩ | ⟨-, -, rfl⟩ <;>
        simp [-List.getD_eq_getElem?_getD, hm, h3, ha, hp, hs, exchangeStart, replyWait,
          timeoutRecv_events]
  · rcases main_cases libc os argv with h | h | ⟨a, h⟩ | ⟨a, h⟩ | ⟨a, h⟩ | ⟨a, last, h⟩
    · simp [h.2, h.1]
    · simp [-List.getD_eq_getElem?_getD, h.2.2, h.2.1]
    · obtain ⟨h3, ha, hp, hm⟩ := h
      have hp2 : ¬ libc.strtoul (argv.getD 2 "") ≤ 65535 := by omega
      simp [-List.getD_eq_getElem?_getD, hm, hp2]
    · obtain ⟨h3, ha, hp, hs, hm⟩ := h
      simp [-List.getD_eq_getElem?_getD, hm, hs]
    · obtain ⟨h3, ha, hp, hs, hsend, hm⟩ := h
      simp only [h3, ha, hp, hs, Option.isSome_some, ne_eq, not_false_eq_true, and_self, iff_true]
      rw [hm]
      exact List.mem_append_left _ (send_mem_exchangeStart os a _)
    · obtain ⟨h3, ha, hp, hs, hsend, hlast, hm⟩ := h
      simp only [h3, ha, hp, hs, Option.isSome_some, ne_eq, not_false_eq_true, and_self, iff_true]
      rw [hm]
      exact List.mem_append_left _ (List.mem_append_left _ (send_mem_exchangeStart os a _))

theorem operations_exchangeStart (os : OS) (a p q : Nat) :
    ((exchangeStart os a p).filter (fun e => e != Event.printf_portWarning)).map Event.forgetPort
      = ((exchangeStart os a q).filter (fun e => e != Event.printf_portWarning)).map
          Event.forgetPort := by
  unfold exchangeStart
  split_ifs <;> simp [List.filter_cons, Event.forgetPort]

/-- C7: `main` creates a socket exactly when it is given two positional
arguments, the address converts and the parsed port value is at most 65535;
otherwise the run performs no network operation at all.  With the C library of
POSIX, a missing argument, the address 999.1.1.1 and the port 70000 each end
the run with the one error line.  A port value below 49152 adds the warning
line and nothing else: two runs that differ in an accepted port value perform
the same operations, apart from the warning and the port number itself. -/
theorem main_network_iff_valid_input (libc : Libc) (os : OS) (argv : List String) :
    ((∃ fd, Event.call_socket fd ∈ (main libc os argv).events) ↔
        (argv.length = 3 ∧ (libc.inet_pton (argv.getD 1 "")).isSome = true
          ∧ libc.strtoul (argv.getD 2 "") ≤ 65535))
      ∧ ((¬ ∃ fd, Event.call_socket fd ∈ (main libc os argv).events) →
          ∀ e ∈ (main libc os argv).events, e.isCall = false)
      ∧ (Event.printf_portWarning ∈ (main libc os argv).events ↔
          (argv.length = 3 ∧ (libc.inet_pton (argv.getD 1 "")).isSome = true
            ∧ libc.strtoul (argv.getD 2 "") < 49152))
      ∧ main posixLibc os ["client", "127.0.0.1"]
          = ⟨[Event.printf_usage (some "client")], none⟩
      ∧ main posixLibc os ["client", "999.1.1.1", "50000"] = ⟨[Event.printf_addrError], none⟩
      ∧ main posixLibc os ["client", "127.0.0.1", "70000"] = ⟨[Event.printf_portError], none⟩
      ∧ (∀ libc2 : Libc, argv.length = 3 →
          libc2.inet_pton (argv.getD 1 "") = libc.inet_pton (argv.getD 1 "") →
          libc.strtoul (argv.getD 2 "") ≤ 65535 → libc2.strtoul (argv.getD 2 "") ≤ 65535 →
          (main libc2 os argv).operations = (main libc os argv).operations) := by
  refine ⟨?_, ?_, ?_, ?_, ?_, ?_, ?_⟩
  · rcases main_cases libc os argv with h | h | ⟨a, h⟩ | ⟨a, h⟩ | ⟨a, h⟩ | ⟨a, last, h⟩
    · simp [h.2, h.1]
    · simp [-List.getD_eq_getElem?_getD, h.2.2, h.2.1]
    · obtain ⟨-, -, hp, hm⟩ := h
      simp only [hm, List.mem_singleton, exists_false, false_iff, not_and, reduceCtorEq]
      intro _ _
      omega
    · obtain ⟨h3, ha, hp, -, hm⟩ := h
      simp only [hm, h3, ha, hp, Option.isSome_some, and_self, iff_true]
      exact ⟨os.socketRet, by simp⟩
    · obtain ⟨h3, ha, hp, -, -, hm⟩ := h
      simp only [hm, h3, ha, hp, Option.isSome_some, and_self, iff_true]
      exact ⟨os.socketRet, by simp [exchangeStart]⟩
    · obtain ⟨h3, ha, hp, -, -, -, hm⟩ := h
      simp only [hm, h3, ha, hp, Option.isSome_some, and_self, iff_true]
      exact ⟨os.socketRet, by simp [exchangeStart]⟩
  · intro hno
    rcases main_cases libc os argv with h | h | ⟨a, h⟩ | ⟨a, h⟩ | ⟨a, h⟩ | ⟨a, last, h⟩
    · simp [h.2, Event.isCall]
    · simp [h.2.2, Event.isCall]
    · simp [h.2.2.2, Event.isCall]
    · exact absurd ⟨os.socketRet, by simp [h.2.2.2.2]⟩ hno
    · exact absurd ⟨os.socketRet, by simp [h.2.2.2.2.2, exchangeStart]⟩ hno
    · exact absurd ⟨os.socketRet, by simp [h.2.2.2.2.2.2, exchangeStart]⟩ hno
  · rcases main_cases libc os argv with h | h | ⟨a, h⟩ | ⟨a, h⟩ | ⟨a, h⟩ | ⟨a, last, h⟩
    · simp [h.2, h.1]
    · simp [-List.getD_eq_getElem?_getD, h.2.2, h.2.1]
    · obtain ⟨-, -, hp, hm⟩ := h
      simp only [hm, List.mem_singleton, false_iff, not_and, reduceCtorEq]
      intro _ _
      omega
    · obtain ⟨h3, ha, hp, -, hm⟩ := h
      simp [-List.getD_eq_getElem?_getD, hm, h3, ha]
    · obtain ⟨h3, ha, hp, -, -, hm⟩ := h
      simp [-List.getD_eq_getElem?_getD, hm, h3, ha, exchangeStart]
    · obtain ⟨h3, ha, hp, -, -, hlast, hm⟩ := h
      rcases hlast with ⟨-, rfl⟩ | ⟨-, rfl⟩ | ⟨-, -, rfl⟩ <;>
        simp [-List.getD_eq_getElem?_getD, hm, h3, ha, exchangeStart, replyWait,
          timeoutRecv_events]
  · exact main_of_argc posixLibc os _ (by decide)
  · exact main_of_bad_address posixLibc os _ (by decide) (by decide)
  · exact main_of_bad_port posixLibc os _ 2130706433 (by decide) (by decide) (by decide)
  · intro libc2 h3 haddr hp hp2
    cases ha : libc.inet_pton (argv.getD 1 "") with
    | none =>
      rw [main_of_bad_address libc os argv h3 ha,
        main_of_bad_address libc2 os argv h3 (haddr.trans ha)]
    | some a =>
      have ha2 := haddr.trans ha
      by_cases hs : os.socketRet = -1
      · rw [main_of_socket_error libc os argv a h3 ha hp hs,
          main_of_socket_error libc2 os argv a h3 ha2 hp2 hs]
        unfold Run.operations
        split_ifs <;> simp [List.filter_cons, Event.forgetPort]
      by_cases hsend : os.sendRet = -1
      · rw [main_of_send_error libc os argv a h3 ha hp hs hsend,
          main_of_send_error libc2 os argv a h3 ha2 hp2 hs hsend]
        unfold Run.operations
        simp only [List.filter_append, List.map_append, operations_exchangeStart os a _ 0]
      · rw [main_of_wait libc os argv a h3 ha hp hs hsend,
          main_of_wait libc2 os argv a h3 ha2 hp2 hs hsend]
        unfold Run.operations
        simp only [List.filter_append, List.map_append, operations_exchangeStart os a _ 0]

theorem exchangeStart_not_terminal (os : OS) (a p : Nat) :
    ∀ e ∈ exchangeStart os a p, e.isTerminal = false := by
  unfold exchangeStart
  split_ifs <;> simp [Event.isTerminal]

theorem replyWait_not_terminal (os : OS) : ∀ e ∈ replyWait os, e.isTerminal = false := by
  unfold replyWait
  rw [timeoutRecv_events]
  split_ifs <;> simp [Event.isTerminal]

/-- Reading a string from a zero-filled array into which `n` bytes were
received: the result is the received bytes from offset `i` up to the first zero
byte, provided the array still holds a zero byte from `i` on. -/
theorem readString_received (byte : Nat → Nat) (n : Nat) :
    ∀ cap i, i ≤ n → n ≤ i + cap →
      (n < i + cap ∨ ∃ j, i ≤ j ∧ j < n ∧ byte j = 0) →
      readString (fun k => if k < n then byte k else 0) cap i
        = some (((List.range (n - i)).map (fun j => byte (i + j))).takeWhile (fun b => b != 0)) := by
  intro cap
  induction cap with
  | zero =>
    intro i h1 h2 h3
    exfalso
    rcases h3 with h3 | ⟨j, hj1, hj2, -⟩ <;> omega
  | succ cap ih =>
    intro i h1 h2 h3
    unfold readString
    by_cases hin : i < n
    · obtain ⟨m, hm⟩ : ∃ m, n - i = m + 1 := ⟨n - i - 1, by omega⟩
      have hm2 : n - (i + 1) = m := by omega
      rw [hm, List.range_succ_eq_map]
      simp only [hin, if_true, List.map_cons, List.map_map, Nat.add_zero]
      by_cases hz : byte i = 0
      · simp [hz]
      · have hnext : n < i + 1 + cap ∨ ∃ j, i + 1 ≤ j ∧ j < n ∧ byte j = 0 := by
          rcases h3 with h3 | ⟨j, hj1, hj2, hj3⟩
          · left; omega
          · right
            refine ⟨j, ?_, hj2, hj3⟩
            rcases Nat.eq_or_lt_of_le hj1 with h | h
            · subst h; exact absurd hj3 hz
            · omega
        rw [ih (i + 1) (by omega) (by omega) hnext, hm2]
        simp only [hz, if_false, Option.map_some']
        rw [List.takeWhile_cons]
        simp only [bne_iff_ne, ne_eq, hz, not_false_eq_true, decide_True, if_true]
        congr 3
        apply List.map_congr_left
        intro j _
        simp only [Function.comp, Nat.succ_eq_add_one]
        congr 1
        omega
    · have hn : n - i = 0 := by omega
      simp [hin, hn]

/-- C10, as stated, fails: a zero byte inside the reply ends the printed text.
For the three received bytes 65, 0, 66 the line printed is the opening text
followed by the byte 65 and the line feed, not by the three bytes. -/
theorem main_reply_cut_at_zero_byte :
    (main posixLibc ⟨3, 0, 26, 1, .delivered 3 (fun i => [65, 0, 66].getD i 0)⟩
        ["client", "127.0.0.1", "50000"]).successLine = some (receivedHead ++ [65] ++ [10])
      ∧ (main posixLibc ⟨3, 0, 26, 1, .delivered 3 (fun i => [65, 0, 66].getD i 0)⟩
        ["client", "127.0.0.1", "50000"]).successLine ≠ some (receivedHead ++ [65, 0, 66] ++ [10])
      ∧ (main posixLibc ⟨3, 0, 26, 1, .delivered 3 (fun i => [65, 0, 66].getD i 0)⟩
        ["client", "127.0.0.1", "50000"]).waitResult = some 3 := by
  decide

theorem successLine_of_last (init : List Event) (last : Event) (w : Option Int)
    (h : ∀ e ∈ init, e.isTerminal = false) :
    (Run.mk (init ++ [last]) w).successLine = last.receivedLine := by
  unfold Run.successLine
  induction init with
  | nil => simp [List.findSome?]; cases last.receivedLine <;> rfl
  | cons e es ih =>
    have he : e.receivedLine = none := by
      have := h e (List.mem_cons_self _ _)
      cases e <;> simp_all [Event.receivedLine, Event.isTerminal]
    simp only [List.cons_append, List.findSome?, he]
    exact ih (fun x hx => h x (List.mem_cons_of_mem _ hx))

/-- C10, amended: on success the line printed consists of the opening text,
the received bytes up to but excluding the first zero byte among them, and a
line feed.  This holds for every reply of `len` bytes, `len ≤ 1024`, that is
shorter than the 1024-byte buffer or contains a zero byte; a reply without a
zero byte is printed whole. -/
theorem main_success_line (libc : Libc) (os : OS) (argv : List String) (a len : Nat)
    (byte : Nat → Nat)
    (h3 : argv.length = 3) (ha : libc.inet_pton (argv.getD 1 "") = some a)
    (hp : libc.strtoul (argv.getD 2 "") ≤ 65535) (hs : os.socketRet ≠ -1)
    (hsend : os.sendRet ≠ -1) (h0 : os.selectRet ≠ 0) (h1 : os.selectRet ≠ -1)
    (hr : os.recvRet = RecvOutcome.delivered len byte) (hlen : len ≤ 1024)
    (hz : len < 1024 ∨ ∃ j, j < len ∧ byte j = 0) :
    (main libc os argv).successLine
      = some (receivedHead ++ ((List.range len).map byte).takeWhile (fun b => b != 0) ++ [10]) := by
  rw [main_of_wait libc os argv a h3 ha hp hs hsend]
  have hd := timeoutRecv_of_delivery os os.socketRet (fun _ => 0) 1024 ⟨10, 0⟩ len byte h0 h1 hr
    (by omega)
  have hmin : min len 1024 = len := by omega
  rw [hmin] at hd
  rw [successLine_of_last _ _ _ (by
    intro e he
    rcases List.mem_append.1 he with he | he
    · exact exchangeStart_not_terminal os a _ e he
    · exact replyWait_not_terminal os e he)]
  have h2 : (timeoutRecv os os.socketRet (fun _ => 0) 1024 ⟨10, 0⟩).ret ≠ -2 := by
    rw [hd.1]; omega
  have h1n : (timeoutRecv os os.socketRet (fun _ => 0) 1024 ⟨10, 0⟩).ret ≠ -1 := by
    rw [hd.1]; omega
  have hread := readString_received byte len 1024 0 (by omega) (by omega) (by
    rcases hz with hz | ⟨j, hj1, hj2⟩
    · left; omega
    · right; exact ⟨j, by omega, hj1, hj2⟩)
  simp only [outcomeLine, h2, h1n, if_false, hd.2, hread, Event.receivedLine, Nat.sub_zero,
    Nat.zero_add]

/-- C10, amended, at a concrete input: the reply `Hi` is printed whole. -/
theorem main_success_line_witness :
    (main posixLibc ⟨3, 0, 26, 1, .delivered 2 (fun i => [72, 105].getD i 0)⟩
        ["client", "127.0.0.1", "50000"]).successLine
      = some (receivedHead
          ++ ((List.range 2).map (fun i => [72, 105].getD i 0)).takeWhile (fun b => b != 0)
          ++ [10]) :=
  main_success_line posixLibc ⟨3, 0, 26, 1, .delivered 2 (fun i => [72, 105].getD i 0)⟩
    ["client", "127.0.0.1", "50000"] 2130706433 2 (fun i => [72, 105].getD i 0)
    (by decide) (by decide) (by decide) (by decide) (by decide) (by decide) (by decide) rfl
    (by decide) (Or.inl (by decide))

end P2PUDPClient
